import Mathlib

/-!
Verification of the mwmbl ingestion-and-reconciliation core:
a shallow embedding of `src/mwmbl/platform/curate.py` and
`src/mwmbl/indexer/update_urls.py`, with theorems checking the
natural-language specification against the code.

External collaborators (tokenizer, page store addressing, URL parsing,
domain resolution, blacklist, error classifier) are parameters of the
embedded functions, mirroring the spec's "consumed contracts".
-/

namespace Mwmbl

/-- Association-list lookup: the value stored for key `k`, scanning from the
front.  Models Python dict lookup (`m[k]`), with `none` in place of a
`KeyError`. -/
def dlookup {β : Type} : List (String × β) → String → Option β
  | [], _ => none
  | (k', v) :: rest, k => if k' = k then some v else dlookup rest k

/-- Association-list insert-or-replace: models Python dict assignment
`m[k] = v` (replace the existing entry in place, else append). -/
def dinsert {β : Type} : List (String × β) → String → β → List (String × β)
  | [], k, v => [(k, v)]
  | (k', v') :: rest, k, v =>
      if k' = k then (k, v) :: rest else (k', v') :: dinsert rest k v

/-- Boolean list membership for strings (models Python `in` on a set of
strings). -/
def lmem (x : String) : List String → Bool
  | [] => false
  | y :: rest => if y = x then true else lmem x rest

/-- Lowercase an ASCII string: models Python `str.lower()` on the ASCII
source tags compared in `_get_document_state`. -/
def str_lower (s : String) : String := String.mk (s.data.map Char.toLower)

/-- Split a character list at every occurrence of `sep`: models Python
`str.split(sep)` for a one-character separator (used for `&` in query
strings). -/
def splitOnChar (sep : Char) : List Char → List (List Char)
  | [] => [[]]
  | c :: rest =>
    let r := splitOnChar sep rest
    if c = sep then [] :: r
    else
      match r with
      | [] => [[c]]
      | g :: gs => (c :: g) :: gs

/-- Split a character list at the first occurrence of `sep`, or `none` when
`sep` does not occur: models Python `str.split(sep, 1)`. -/
def splitFirst (sep : Char) : List Char → Option (List Char × List Char)
  | [] => none
  | c :: rest =>
    if c = sep then some ([], rest)
    else
      match splitFirst sep rest with
      | none => none
      | some (a, b) => some (c :: a, b)

/-- Model of `urllib.parse.parse_qsl` with its defaults
(`keep_blank_values=False`, `strict_parsing=False`, separator `&`):
fields without `=` and fields with an empty value are dropped; the name is
split from the value at the first `=`.  Percent-decoding and `+` decoding
are not modelled (no claim involves an encoded URL). -/
def parse_qsl (qs : String) : List (String × String) :=
  (splitOnChar '&' qs.data).filterMap fun nv =>
    match splitFirst '=' nv with
    | none => none
    | some (name, value) =>
        if value = [] then none else some (String.mk name, String.mk value)

/-- Model of `urllib.parse.parse_qs`: group the `parse_qsl` pairs into a
key-ordered multimap, appending each value to its key's list (Python builds
a dict in insertion order).  Every value list is nonempty by
construction. -/
def parse_qs (qs : String) : List (String × List String) :=
  (parse_qsl qs).foldl
    (fun acc kv =>
      if acc.any fun p => p.1 = kv.1 then
        acc.map fun p => if p.1 = kv.1 then (p.1, p.2 ++ [kv.2]) else p
      else acc ++ [(kv.1, [kv.2])])
    []

/-- Document provenance/approval states used by the curation merge
(`DocumentState` in `mwmbl.tinysearchengine.indexer`, an external module:
only the members referenced by `curate.py` are modelled). -/
inductive DocumentState where
  | FROM_USER_APPROVED
  | FROM_GOOGLE_APPROVED
  | ORGANIC_APPROVED
  | FROM_USER
  | FROM_GOOGLE
deriving DecidableEq

/-- A term-indexed document as stored on an index page
(`Document` in `mwmbl.tinysearchengine.indexer`).  Scores are
floats in the source; every score the core computes is an integer-valued
float below 2^52, where float arithmetic is exact, so scores are embedded
as integers. -/
structure Document where
  title : String
  url : String
  extract : String
  score : Int
  term : String
  state : Option DocumentState
deriving DecidableEq

/-- MAX_CURATED_SCORE from `curate.py` (`1_111_111.0`). -/
def MAX_CURATED_SCORE : Int := 1111111

/-- One proposed result inside a curation request. -/
structure CurationResult where
  title : String
  url : String
  extract : String
  validated : Bool
  source : String
deriving DecidableEq

/-- The part of a curation request the merge reads: the query URL and the
ordered proposed results. -/
structure CurationRequest where
  url : String
  results : List CurationResult
deriving DecidableEq

/-- The ways `_curate` aborts before writing the page: the two explicit
`ValueError`s, and the `StopIteration` that `next(iter({}.values()))`
raises when the parsed query string is empty. -/
inductive CurateError where
  | multipleQueryStrings
  | multipleQueryValues
  | stopIteration
deriving DecidableEq

/-- The mapping from a result's `validated` flag and `source` tag to the
persisted document state (`_get_document_state` in `curate.py`). -/
def _get_document_state (validated : Bool) (source : String) :
    Option DocumentState :=
  if validated then
    if str_lower source = "user" then some DocumentState.FROM_USER_APPROVED
    else if str_lower source = "google" then some DocumentState.FROM_GOOGLE_APPROVED
    else some DocumentState.ORGANIC_APPROVED
  else if str_lower source = "user" then some DocumentState.FROM_USER
  else if str_lower source = "google" then some DocumentState.FROM_GOOGLE
  else none

/-- The synthesized curated documents of `_curate`: one `Document` per
result, in order, with `score = MAX_CURATED_SCORE - i` for the 0-based
position `i`, the normalized term, and the derived state. -/
def curatedDocuments (term : String) (results : List CurationResult) :
    List Document :=
  results.enum.map fun ir =>
    { title := ir.2.title
      url := ir.2.url
      extract := ir.2.extract
      score := MAX_CURATED_SCORE - (ir.1 : Int)
      term := term
      state := _get_document_state ir.2.validated ir.2.source }

/-- The curation merge (`_curate` in `curate.py`), from query-string
validation to the full-page replace.  External contracts are parameters:
`tokenize` (the tokenizer), `get_key_page_index` (page addressing) and
`get_page` (page read with owning terms already resolved, combining
`TinyIndex.get_page` with `add_term_infos`).  The result is the page write
the source performs (`store_in_page(page_index, all_documents)`), so an
`Except.error` outcome is exactly "no page write". -/
def _curate (tokenize : String → List String)
    (get_key_page_index : String → Nat) (get_page : Nat → List Document)
    (curation : CurationRequest) :
    Except CurateError (Nat × List Document) :=
  let query_string := parse_qs curation.url
  if query_string.length > 1 then Except.error CurateError.multipleQueryStrings
  else
    match query_string with
    | [] => Except.error CurateError.stopIteration
    | (_, queries) :: _ =>
      if queries.length > 1 then Except.error CurateError.multipleQueryValues
      else
        let query := queries.headD ""
        let term := " ".intercalate (tokenize query)
        let documents := curatedDocuments term curation.results
        let page_index := get_key_page_index term
        let existing_documents := get_page page_index
        let other_documents := existing_documents.filter fun doc => doc.term != term
        let all_documents := documents ++ other_documents
        Except.ok (page_index, all_documents)

example : parse_qs "?q=foo&lang=en" = [("?q", ["foo"]), ("lang", ["en"])] := by decide
example : parse_qs "q=a&q=b" = [("q", ["a", "b"])] := by decide
example : parse_qs "" = [] := by decide
example : parse_qs "q=cat" = [("q", ["cat"])] := by decide
example : str_lower "Google" = "google" := by decide
example :
    _curate (fun s => [s]) (fun _ => 0) (fun _ => []) ⟨"?q=foo&lang=en", []⟩ =
      Except.error CurateError.multipleQueryStrings := rfl
example :
    _curate (fun s => [s]) (fun _ => 0)
      (fun _ => [⟨"t", "u", "e", 5, "dog", none⟩]) ⟨"q=cat", []⟩ =
      Except.ok (0, [⟨"t", "u", "e", 5, "dog", none⟩]) := rfl

/-- URL lifecycle status (`URLStatus` in `mwmbl.crawler.urls`, an external
module: the spec requires at least `NEW`, `CRAWLED` and an error variant;
the reconciler only ever names `NEW` and `CRAWLED`, errors come from the
external classifier). -/
inductive URLStatus where
  | NEW
  | CRAWLED
  | ERROR_OTHER
deriving DecidableEq

/-- The content of a successfully fetched crawl item: the discovered links
and the optional secondary link source.  Python treats a missing
`extra_links` and an empty list identically (`if item.content.extra_links:`),
so both are embedded as the empty list. -/
structure CrawlItemContent where
  links : List String
  extra_links : List String
deriving DecidableEq

/-- One crawl observation: the item's URL, its timestamp in milliseconds
since the epoch, and the content (`none` for a failed fetch). -/
structure CrawlItem where
  url : String
  timestamp : Int
  content : Option CrawlItemContent
deriving DecidableEq

/-- One crawl session's output: the crawler's identity hash and its ordered
items. -/
structure HashedBatch where
  user_id_hash : String
  items : List CrawlItem
deriving DecidableEq

/-- The scheme and netloc components of a parsed URL (the two components of
`urllib.parse.urlparse` that `process_link` reads). -/
structure UrlParts where
  scheme : String
  netloc : String
deriving DecidableEq

/-- The external contracts `record_urls_in_database` consumes: URL parsing
(`none` models a raised `ValueError`), the blacklist gate (closed over the
cycle's blacklist snapshot), domain resolution of the crawled page's own URL
(`mwmbl.utils.get_domain`; `none` models a raised `ValueError`), and the
error classifier for failed items
(`mwmbl.indexer.index_batches.get_url_error_status`). -/
structure RecEnv where
  urlparse : String → Option UrlParts
  is_domain_blacklisted : String → Bool
  get_domain : String → Option String
  get_url_error_status : CrawlItem → URLStatus

/-- The mutable accumulators of one reconciliation cycle: the
`url_users`, `url_timestamps` and `url_statuses` dicts and the
`domain_links` defaultdict of `record_urls_in_database`.  Timestamps are
embedded as the millisecond count (see `get_datetime_from_timestamp`). -/
structure RecState where
  url_users : List (String × String)
  url_timestamps : List (String × Int)
  url_statuses : List (String × URLStatus)
  domain_links : List (String × List String)
deriving DecidableEq

/-- The empty accumulators at the start of a cycle. -/
def initState : RecState := ⟨[], [], [], []⟩

/-- Model of `get_datetime_from_timestamp` in `update_urls.py`: the source
maps a millisecond count to `datetime(1970,1,1,utc) + timedelta(seconds =
ms/1000)`, a strictly monotone injection, so the datetime is embedded as the
millisecond count itself. -/
def get_datetime_from_timestamp (t : Int) : Int := t

/-- Dict assignment `url_users[k] = v`. -/
def setUser (k v : String) (s : RecState) : RecState :=
  { s with url_users := dinsert s.url_users k v }

/-- Dict assignment `url_timestamps[k] = v`. -/
def setTs (k : String) (v : Int) (s : RecState) : RecState :=
  { s with url_timestamps := dinsert s.url_timestamps k v }

/-- Dict assignment `url_statuses[k] = v`. -/
def setStatus (k : String) (v : URLStatus) (s : RecState) : RecState :=
  { s with url_statuses := dinsert s.url_statuses k v }

/-- The set insertion `domain_links[d].add(t)` on a `defaultdict(set)`:
look up `d` (defaulting to the empty set), add `t` if absent. -/
def addEdge (dl : List (String × List String)) (d t : String) :
    List (String × List String) :=
  let ts := (dlookup dl d).getD []
  dinsert dl d (if lmem t ts then ts else ts ++ [t])

/-- The edge update `domain_links[d].add(t)` on the accumulator state. -/
def addLink (d t : String) (s : RecState) : RecState :=
  { s with domain_links := addEdge s.domain_links d t }

/-- Membership of a directed edge `d -> t` in the accumulated domain-link
map. -/
def edgeMem (dl : List (String × List String)) (d t : String) : Bool :=
  match dlookup dl d with
  | some ts => lmem t ts
  | none => false

/-- One discovered link (`process_link` in `update_urls.py`): parse the
link (a parse failure returns with no side effects); return with no side
effects when the target domain is blacklisted; otherwise stamp the link URL
and the root URL `scheme://netloc/` with the crawling user and timestamp and
record the edge from the crawled page's domain to the target domain. -/
def process_link (env : RecEnv) (user_id_hash crawled_page_domain link : String)
    (timestamp : Int) (s : RecState) : RecState :=
  match env.urlparse link with
  | none => s
  | some parsed_link =>
    if env.is_domain_blacklisted parsed_link.netloc then s
    else
      addLink crawled_page_domain parsed_link.netloc
        (setTs (parsed_link.scheme ++ "://" ++ parsed_link.netloc ++ "/") timestamp
          (setUser (parsed_link.scheme ++ "://" ++ parsed_link.netloc ++ "/") user_id_hash
            (setTs link timestamp (setUser link user_id_hash s))))

/-- One crawl item of the fold in `record_urls_in_database`: record the
item's timestamp and user, then its status (`CRAWLED` when content is
present, else the classifier's result); for crawled items, resolve the
page's own domain (on failure, `continue`: skip link processing for this
item only) and process `links` then `extra_links`. -/
def process_item (env : RecEnv) (user_id_hash : String) (item : CrawlItem)
    (s : RecState) : RecState :=
  let timestamp := get_datetime_from_timestamp item.timestamp
  let s := setUser item.url user_id_hash (setTs item.url timestamp s)
  match item.content with
  | none => setStatus item.url (env.get_url_error_status item) s
  | some content =>
    let s := setStatus item.url URLStatus.CRAWLED s
    match env.get_domain item.url with
    | none => s
    | some crawled_page_domain =>
      let s := content.links.foldl
        (fun s link => process_link env user_id_hash crawled_page_domain link timestamp s) s
      content.extra_links.foldl
        (fun s link => process_link env user_id_hash crawled_page_domain link timestamp s) s

/-- The accumulation fold of `record_urls_in_database` over a batch
collection, starting from accumulator state `s`. -/
def record_urls_state (env : RecEnv) (batches : List HashedBatch)
    (s : RecState) : RecState :=
  batches.foldl
    (fun s batch =>
      batch.items.foldl
        (fun s item => process_item env batch.user_id_hash item s) s)
    s

/-- The canonical output record per URL (`FoundURL` in
`mwmbl.crawler.urls`): the source reads `url_users[url]` and
`url_timestamps[url]` as plain dict lookups and `url_statuses[url]` on a
`defaultdict` with default `NEW`; the plain lookups are embedded as
`Option` values (`none` in place of a `KeyError`, which never occurs for
the keys the fold produces). -/
structure FoundURL where
  url : String
  user_id_hash : Option String
  status : URLStatus
  timestamp : Option Int
deriving DecidableEq

/-- The record built for one URL from the final accumulator state
(`FoundURL(url, url_users[url], url_statuses[url], url_timestamps[url])`). -/
def mkFoundURL (s : RecState) (url : String) : FoundURL :=
  ⟨url, dlookup s.url_users url, (dlookup s.url_statuses url).getD URLStatus.NEW,
    dlookup s.url_timestamps url⟩

/-- The key set `url_statuses.keys() | url_users.keys()` over which the
output records are built, as a duplicate-free list. -/
def foundKeys (s : RecState) : List String :=
  (s.url_statuses.map Prod.fst ++ s.url_users.map Prod.fst).dedup

/-- The derived outputs of one reconciliation cycle: the `found_urls` list
handed to `URLDatabase.update_found_urls` and the `domain_links` map handed
to `DomainLinkDatabase.update_domain_links` (both external stores). -/
structure RecOutput where
  found_urls : List FoundURL
  domain_links : List (String × List String)

/-- The reconciliation fold (`record_urls_in_database` in
`update_urls.py`), from the batch collection to the derived outputs.  The
external database writes and the queue push consume these outputs and are
out of scope. -/
def record_urls_in_database (env : RecEnv) (batches : List HashedBatch) :
    RecOutput :=
  let s := record_urls_state env batches initState
  ⟨(foundKeys s).map (mkFoundURL s), s.domain_links⟩

/-- Model of the scheme/netloc extraction of `urllib.parse.urlparse` for
the plain absolute URLs exercised here: the scheme is the part before the
first `:`, the netloc follows `//` and runs to the first `/`, `?` or `#`;
a URL with no scheme or no `//` yields empty components.  Total, modelling
that `urlparse` raises only on exotic inputs none of which occur here. -/
def takeNetloc : List Char → List Char
  | [] => []
  | c :: rest =>
    if c = '/' ∨ c = '?' ∨ c = '#' then [] else c :: takeNetloc rest

/-- See `takeNetloc`. -/
def urlparseModel (url : String) : Option UrlParts :=
  match splitFirst ':' url.data with
  | some (scheme, rest) =>
    match rest with
    | '/' :: '/' :: rest2 => some ⟨String.mk scheme, String.mk (takeNetloc rest2)⟩
    | _ => some ⟨String.mk scheme, ""⟩
  | none => some ⟨"", ""⟩

example : urlparseModel "http://b.example/x/y" = some ⟨"http", "b.example"⟩ := by decide
example : urlparseModel "http://spam.example/page" = some ⟨"http", "spam.example"⟩ := by decide
example :
    process_link ⟨urlparseModel, fun d => d = "spam.example", fun _ => none, fun _ => URLStatus.ERROR_OTHER⟩
      "u1" "a.example" "http://spam.example/page" 5 initState = initState := by
  decide

/-- Lookup after insert-or-replace: the inserted key reads the new value,
every other key is unaffected. -/
lemma dlookup_dinsert {β : Type} (m : List (String × β)) (k : String) (v : β)
    (k' : String) :
    dlookup (dinsert m k v) k' = if k' = k then some v else dlookup m k' := by
  induction m with
  | nil =>
    by_cases h : k' = k
    · subst h; simp [dinsert, dlookup]
    · have h2 : ¬ k = k' := fun hh => h hh.symm
      simp [dinsert, dlookup, h, h2]
  | cons hd tl ih =>
    obtain ⟨hk, hv⟩ := hd
    by_cases h1 : hk = k
    · subst h1
      by_cases h2 : hk = k'
      · subst h2; simp [dinsert, dlookup]
      · have h3 : ¬ k' = hk := fun hh => h2 hh.symm
        simp [dinsert, dlookup, h2, h3]
    · by_cases h2 : hk = k'
      · subst h2
        have h3 : ¬ hk = k := h1
        simp [dinsert, dlookup, h3]
      · simp [dinsert, dlookup, h1, h2, ih]

/-- A key has a stored value exactly when it occurs among the keys. -/
lemma dlookup_isSome_iff {β : Type} (m : List (String × β)) (k : String) :
    (dlookup m k).isSome = true ↔ k ∈ m.map Prod.fst := by
  induction m with
  | nil => simp [dlookup]
  | cons hd tl ih =>
    obtain ⟨hk, hv⟩ := hd
    by_cases h : hk = k
    · subst h; simp [dlookup]
    · have h2 : ¬ k = hk := fun hh => h hh.symm
      simp [dlookup, h, h2, ih]

/-- Boolean membership agrees with list membership. -/
lemma lmem_iff (x : String) (l : List String) : lmem x l = true ↔ x ∈ l := by
  induction l with
  | nil => simp [lmem]
  | cons y rest ih =>
    by_cases h : y = x
    · subst h; simp [lmem]
    · have h2 : ¬ x = y := fun hh => h hh.symm
      simp [lmem, h, h2, ih]

/-- Membership in a list with one element appended at the end. -/
lemma lmem_append_single (x y : String) (l : List String) :
    lmem x (l ++ [y]) = (lmem x l || (if y = x then true else false)) := by
  induction l with
  | nil => simp [lmem]
  | cons z rest ih => by_cases h : z = x <;> simp [lmem, h, ih]

/-- Membership after adding the edge `d -> t`: the added edge is present,
every other pair is unaffected. -/
lemma edgeMem_addEdge (dl : List (String × List String)) (d t d' t' : String) :
    edgeMem (addEdge dl d t) d' t' =
      if d' = d ∧ t' = t then true else edgeMem dl d' t' := by
  unfold edgeMem addEdge
  rw [dlookup_dinsert]
  by_cases hd : d' = d
  · subst hd
    simp only [if_pos rfl, true_and]
    cases h : dlookup dl d' with
    | none =>
      by_cases ht : t' = t
      · subst ht; simp [lmem]
      · have ht2 : ¬ t = t' := fun hh => ht hh.symm
        simp [lmem, ht, ht2]
    | some ts =>
      simp only [Option.getD_some]
      by_cases ht : t' = t
      · subst ht
        cases hmv : lmem t' ts with
        | true => simp [hmv]
        | false => simp [hmv, lmem_append_single]
      · have ht2 : ¬ t = t' := fun hh => ht hh.symm
        cases hmv : lmem t ts with
        | true => simp [hmv, ht]
        | false => simp [hmv, ht, ht2, lmem_append_single]
  · have hd2 : ¬ (d' = d ∧ t' = t) := fun hh => hd hh.1
    simp [hd, hd2]

/-- The stored user for URL `k`. -/
def userAt (k : String) (s : RecState) : Option String := dlookup s.url_users k

/-- The stored timestamp for URL `k`. -/
def tsAt (k : String) (s : RecState) : Option Int := dlookup s.url_timestamps k

/-- The explicitly stored status for URL `k` (`none` when only the
defaultdict default would apply). -/
def statusAt (k : String) (s : RecState) : Option URLStatus :=
  dlookup s.url_statuses k

/-- Presence of the edge `d -> t`. -/
def edgeAt (d t : String) (s : RecState) : Bool := edgeMem s.domain_links d t

/-- A state transformer writes the observable `A` independently of the
state it runs on: on any two starting states it either produces the same
value of `A` (it wrote it), or it leaves `A` unchanged on both. -/
def QExt {γ : Type} (A : RecState → γ) (f : RecState → RecState) : Prop :=
  ∀ s s' : RecState, A (f s) = A (f s') ∨ (A (f s) = A s ∧ A (f s') = A s')

lemma qext_id {γ : Type} (A : RecState → γ) : QExt A (fun s => s) :=
  fun _ _ => Or.inr ⟨rfl, rfl⟩

lemma qext_comp {γ : Type} (A : RecState → γ) (f g : RecState → RecState)
    (hf : QExt A f) (hg : QExt A g) : QExt A (fun s => g (f s)) := by
  intro s s'
  rcases hg (f s) (f s') with h | ⟨h1, h2⟩
  · exact Or.inl h
  · rcases hf s s' with h' | ⟨h1', h2'⟩
    · exact Or.inl (h1.trans (h'.trans h2.symm))
    · exact Or.inr ⟨h1.trans h1', h2.trans h2'⟩

/-- All four observables of the reconciliation accumulators are written
state-independently by `f`. -/
def WriteOnly (f : RecState → RecState) : Prop :=
  (∀ k, QExt (userAt k) f) ∧ (∀ k, QExt (tsAt k) f) ∧
    (∀ k, QExt (statusAt k) f) ∧ (∀ d t, QExt (edgeAt d t) f)

lemma writeonly_id : WriteOnly (fun s => s) :=
  ⟨fun _ => qext_id _, fun _ => qext_id _, fun _ => qext_id _,
    fun _ _ => qext_id _⟩

lemma writeonly_comp {f g : RecState → RecState} (hf : WriteOnly f)
    (hg : WriteOnly g) : WriteOnly (fun s => g (f s)) :=
  ⟨fun k => qext_comp _ f g (hf.1 k) (hg.1 k),
    fun k => qext_comp _ f g (hf.2.1 k) (hg.2.1 k),
    fun k => qext_comp _ f g (hf.2.2.1 k) (hg.2.2.1 k),
    fun d t => qext_comp _ f g (hf.2.2.2 d t) (hg.2.2.2 d t)⟩

lemma writeonly_setUser (k v : String) : WriteOnly (setUser k v) := by
  refine ⟨fun k' => ?_, fun k' => fun s s' => Or.inr ⟨rfl, rfl⟩,
    fun k' => fun s s' => Or.inr ⟨rfl, rfl⟩,
    fun d t => fun s s' => Or.inr ⟨rfl, rfl⟩⟩
  intro s s'
  by_cases h : k' = k
  · exact Or.inl (by simp [userAt, setUser, dlookup_dinsert, h])
  · exact Or.inr (by simp [userAt, setUser, dlookup_dinsert, h])

lemma writeonly_setTs (k : String) (v : Int) : WriteOnly (setTs k v) := by
  refine ⟨fun k' => fun s s' => Or.inr ⟨rfl, rfl⟩, fun k' => ?_,
    fun k' => fun s s' => Or.inr ⟨rfl, rfl⟩,
    fun d t => fun s s' => Or.inr ⟨rfl, rfl⟩⟩
  intro s s'
  by_cases h : k' = k
  · exact Or.inl (by simp [tsAt, setTs, dlookup_dinsert, h])
  · exact Or.inr (by simp [tsAt, setTs, dlookup_dinsert, h])

lemma writeonly_setStatus (k : String) (v : URLStatus) :
    WriteOnly (setStatus k v) := by
  refine ⟨fun k' => fun s s' => Or.inr ⟨rfl, rfl⟩,
    fun k' => fun s s' => Or.inr ⟨rfl, rfl⟩, fun k' => ?_,
    fun d t => fun s s' => Or.inr ⟨rfl, rfl⟩⟩
  intro s s'
  by_cases h : k' = k
  · exact Or.inl (by simp [statusAt, setStatus, dlookup_dinsert, h])
  · exact Or.inr (by simp [statusAt, setStatus, dlookup_dinsert, h])

lemma writeonly_addLink (d t : String) : WriteOnly (addLink d t) := by
  refine ⟨fun k' => fun s s' => Or.inr ⟨rfl, rfl⟩,
    fun k' => fun s s' => Or.inr ⟨rfl, rfl⟩,
    fun k' => fun s s' => Or.inr ⟨rfl, rfl⟩, fun d' t' => ?_⟩
  intro s s'
  by_cases h : d' = d ∧ t' = t
  · exact Or.inl (by simp [edgeAt, addLink, edgeMem_addEdge, h])
  · exact Or.inr (by simp [edgeAt, addLink, edgeMem_addEdge, h])

/-- A fold over state-independent writers is a state-independent writer. -/
lemma writeonly_foldl {α : Type} (step : α → RecState → RecState)
    (h : ∀ x, WriteOnly (step x)) (l : List α) :
    WriteOnly (fun s => l.foldl (fun s x => step x s) s) := by
  induction l with
  | nil => simpa using writeonly_id
  | cons x xs ih =>
    simp only [List.foldl_cons]
    exact writeonly_comp (h x) ih

lemma writeonly_process_link (env : RecEnv) (u d link : String) (ts : Int) :
    WriteOnly (fun s => process_link env u d link ts s) := by
  cases h : env.urlparse link with
  | none => simpa [process_link, h] using writeonly_id
  | some p =>
    by_cases hb : env.is_domain_blacklisted p.netloc
    · simpa [process_link, h, hb] using writeonly_id
    · simp only [process_link, h, hb, Bool.false_eq_true, if_false]
      exact writeonly_comp
        (writeonly_comp
          (writeonly_comp (writeonly_comp (writeonly_setUser link u) (writeonly_setTs link ts))
            (writeonly_setUser (p.scheme ++ "://" ++ p.netloc ++ "/") u))
          (writeonly_setTs (p.scheme ++ "://" ++ p.netloc ++ "/") ts))
        (writeonly_addLink d p.netloc)

lemma writeonly_process_item (env : RecEnv) (u : String) (item : CrawlItem) :
    WriteOnly (fun s => process_item env u item s) := by
  cases hc : item.content with
  | none =>
    simp only [process_item, hc]
    exact writeonly_comp
      (writeonly_comp (writeonly_setTs item.url (get_datetime_from_timestamp item.timestamp))
        (writeonly_setUser item.url u))
      (writeonly_setStatus item.url (env.get_url_error_status item))
  | some c =>
    cases hd : env.get_domain item.url with
    | none =>
      simp only [process_item, hc, hd]
      exact writeonly_comp
        (writeonly_comp (writeonly_setTs item.url (get_datetime_from_timestamp item.timestamp))
          (writeonly_setUser item.url u))
        (writeonly_setStatus item.url URLStatus.CRAWLED)
    | some dm =>
      simp only [process_item, hc, hd]
      exact writeonly_comp
        (writeonly_comp
          (writeonly_comp
            (writeonly_comp (writeonly_setTs item.url (get_datetime_from_timestamp item.timestamp))
              (writeonly_setUser item.url u))
            (writeonly_setStatus item.url URLStatus.CRAWLED))
          (writeonly_foldl _ (fun link => writeonly_process_link env u dm link
            (get_datetime_from_timestamp item.timestamp)) c.links))
        (writeonly_foldl _ (fun link => writeonly_process_link env u dm link
          (get_datetime_from_timestamp item.timestamp)) c.extra_links)

lemma writeonly_record_urls_state (env : RecEnv) (batches : List HashedBatch) :
    WriteOnly (fun s => record_urls_state env batches s) := by
  unfold record_urls_state
  exact writeonly_foldl _
    (fun batch => writeonly_foldl _
      (fun item => writeonly_process_item env batch.user_id_hash item) batch.items)
    batches

/-- Applying a state-independent writer twice leaves every observable where
one application put it. -/
lemma qext_absorb {γ : Type} (A : RecState → γ) (f : RecState → RecState)
    (h : QExt A f) (s : RecState) : A (f (f s)) = A (f s) := by
  rcases h (f s) s with h1 | ⟨h1, _⟩ <;> exact h1

/-- Membership in the key set the output records range over. -/
lemma mem_foundKeys (s : RecState) (u : String) :
    u ∈ foundKeys s ↔
      ((dlookup s.url_statuses u).isSome = true ∨
        (dlookup s.url_users u).isSome = true) := by
  simp [foundKeys, List.mem_dedup, List.mem_append, dlookup_isSome_iff]

/-- Membership in the derived `found_urls` list, phrased through the final
accumulator lookups. -/
lemma mem_found_iff (s : RecState) (r : FoundURL) :
    r ∈ (foundKeys s).map (mkFoundURL s) ↔
      ∃ u, ((dlookup s.url_statuses u).isSome = true ∨
        (dlookup s.url_users u).isSome = true) ∧ r = mkFoundURL s u := by
  simp only [List.mem_map, mem_foundKeys]
  constructor
  · rintro ⟨u, hu, hr⟩; exact ⟨u, hu, hr.symm⟩
  · rintro ⟨u, hu, hr⟩; exact ⟨u, hu, hr.symm⟩

/-- Two accumulator states with the same lookups derive the same
`found_urls` member set. -/
lemma found_ext (s1 s2 : RecState)
    (hu : ∀ k, dlookup s2.url_users k = dlookup s1.url_users k)
    (ht : ∀ k, dlookup s2.url_timestamps k = dlookup s1.url_timestamps k)
    (hs : ∀ k, dlookup s2.url_statuses k = dlookup s1.url_statuses k)
    (r : FoundURL) :
    r ∈ (foundKeys s2).map (mkFoundURL s2) ↔
      r ∈ (foundKeys s1).map (mkFoundURL s1) := by
  have hmk : ∀ u, mkFoundURL s2 u = mkFoundURL s1 u := by
    intro u; simp [mkFoundURL, hu, ht, hs]
  rw [mem_found_iff, mem_found_iff]
  constructor
  · rintro ⟨u, hcase, hr⟩
    exact ⟨u, by rw [← hs, ← hu]; exact hcase, by rw [← hmk]; exact hr⟩
  · rintro ⟨u, hcase, hr⟩
    exact ⟨u, by rw [hs, hu]; exact hcase, by rw [hmk]; exact hr⟩

/-- C9.  Reconciliation is idempotent over its input: the derivation is a
deterministic pure function of the batch collection, and folding the same
collection again on top of a completed fold moves nothing — the `FoundURL`
record set and the domain-link edge set derived from `batches ++ batches`
are exactly those derived from `batches` (no duplication, no drift).  The
two external persistence calls consume these derived outputs, so re-running
the cycle re-sends the same sets. -/
theorem c9_reconciliation_idempotent (env : RecEnv) (batches : List HashedBatch) :
    (∀ r : FoundURL,
      r ∈ (record_urls_in_database env (batches ++ batches)).found_urls ↔
        r ∈ (record_urls_in_database env batches).found_urls) ∧
    (∀ d t : String,
      edgeMem (record_urls_in_database env (batches ++ batches)).domain_links d t =
        edgeMem (record_urls_in_database env batches).domain_links d t) := by
  have hfold : record_urls_state env (batches ++ batches) initState =
      record_urls_state env batches (record_urls_state env batches initState) := by
    simp [record_urls_state, List.foldl_append]
  have hw := writeonly_record_urls_state env batches
  have hu : ∀ k, dlookup (record_urls_state env (batches ++ batches) initState).url_users k =
      dlookup (record_urls_state env batches initState).url_users k := by
    intro k; rw [hfold]
    exact qext_absorb (userAt k) _ (hw.1 k) initState
  have ht : ∀ k, dlookup (record_urls_state env (batches ++ batches) initState).url_timestamps k =
      dlookup (record_urls_state env batches initState).url_timestamps k := by
    intro k; rw [hfold]
    exact qext_absorb (tsAt k) _ (hw.2.1 k) initState
  have hs : ∀ k, dlookup (record_urls_state env (batches ++ batches) initState).url_statuses k =
      dlookup (record_urls_state env batches initState).url_statuses k := by
    intro k; rw [hfold]
    exact qext_absorb (statusAt k) _ (hw.2.2.1 k) initState
  constructor
  · intro r
    exact found_ext (record_urls_state env batches initState)
      (record_urls_state env (batches ++ batches) initState) hu ht hs r
  · intro d t
    show edgeMem (record_urls_state env (batches ++ batches) initState).domain_links d t =
      edgeMem (record_urls_state env batches initState).domain_links d t
    rw [hfold]
    exact qext_absorb (edgeAt d t) _ (hw.2.2.2 d t) initState

/-- Link processing never touches the status map. -/
lemma process_link_statuses (env : RecEnv) (u d link : String) (ts : Int)
    (s : RecState) :
    (process_link env u d link ts s).url_statuses = s.url_statuses := by
  cases h : env.urlparse link with
  | none => simp [process_link, h]
  | some p =>
    by_cases hb : env.is_domain_blacklisted p.netloc <;>
      simp [process_link, h, hb, addLink, setTs, setUser]

/-- Every user value a link write stores is the crawling user's hash. -/
lemma process_link_users_lookup (env : RecEnv) (u d link : String) (ts : Int)
    (s : RecState) (k : String) :
    dlookup (process_link env u d link ts s).url_users k =
        dlookup s.url_users k ∨
      dlookup (process_link env u d link ts s).url_users k = some u := by
  cases h : env.urlparse link with
  | none => exact Or.inl (by simp [process_link, h])
  | some p =>
    by_cases hb : env.is_domain_blacklisted p.netloc
    · exact Or.inl (by simp [process_link, h, hb])
    · simp only [process_link, h, hb, Bool.false_eq_true, if_false, addLink,
        setTs, setUser, dlookup_dinsert]
      by_cases h1 : k = p.scheme ++ "://" ++ p.netloc ++ "/"
      · exact Or.inr (by simp [h1])
      · by_cases h2 : k = link
        · exact Or.inr (by simp [h1, h2])
        · exact Or.inl (by simp [h1, h2])

/-- Every timestamp value a link write stores is the item's timestamp. -/
lemma process_link_ts_lookup (env : RecEnv) (u d link : String) (ts : Int)
    (s : RecState) (k : String) :
    dlookup (process_link env u d link ts s).url_timestamps k =
        dlookup s.url_timestamps k ∨
      dlookup (process_link env u d link ts s).url_timestamps k = some ts := by
  cases h : env.urlparse link with
  | none => exact Or.inl (by simp [process_link, h])
  | some p =>
    by_cases hb : env.is_domain_blacklisted p.netloc
    · exact Or.inl (by simp [process_link, h, hb])
    · simp only [process_link, h, hb, Bool.false_eq_true, if_false, addLink,
        setTs, setUser, dlookup_dinsert]
      by_cases h1 : k = p.scheme ++ "://" ++ p.netloc ++ "/"
      · exact Or.inr (by simp [h1])
      · by_cases h2 : k = link
        · exact Or.inr (by simp [h1, h2])
        · exact Or.inl (by simp [h1, h2])

/-- Folding the link processor over any link list preserves a URL already
stamped with this user and timestamp, and leaves statuses untouched. -/
lemma links_fold_inv (env : RecEnv) (u d : String) (ts : Int)
    (links : List String) (s : RecState) (k : String)
    (hu : dlookup s.url_users k = some u)
    (ht : dlookup s.url_timestamps k = some ts) :
    dlookup (links.foldl (fun s link => process_link env u d link ts s) s).url_users k = some u ∧
    dlookup (links.foldl (fun s link => process_link env u d link ts s) s).url_timestamps k = some ts ∧
    (links.foldl (fun s link => process_link env u d link ts s) s).url_statuses = s.url_statuses := by
  induction links generalizing s with
  | nil => exact ⟨hu, ht, rfl⟩
  | cons l rest ih =>
    simp only [List.foldl_cons]
    have hu' : dlookup (process_link env u d l ts s).url_users k = some u := by
      rcases process_link_users_lookup env u d l ts s k with h | h
      · rw [h]; exact hu
      · exact h
    have ht' : dlookup (process_link env u d l ts s).url_timestamps k = some ts := by
      rcases process_link_ts_lookup env u d l ts s k with h | h
      · rw [h]; exact ht
      · exact h
    obtain ⟨h1, h2, h3⟩ := ih (process_link env u d l ts s) hu' ht'
    exact ⟨h1, h2, h3.trans (process_link_statuses env u d l ts s)⟩

/-- C3.  Processing one observation of a URL unconditionally overwrites the
stored user, timestamp and status, whatever any earlier observation left in
the accumulators: afterwards the URL's user is this batch's user hash, its
timestamp is this item's, and its status is `CRAWLED` exactly when content
is present and the external error classifier's result otherwise.  In
particular (last conjunct) a URL whose stored status was previously the
implicit `NEW` of a link-only observation ends with output status `CRAWLED`
once a crawled item for it is processed later in the fold. -/
theorem c3_last_write_wins (env : RecEnv) (u : String) (item : CrawlItem)
    (s : RecState) :
    dlookup (process_item env u item s).url_users item.url = some u ∧
    dlookup (process_item env u item s).url_timestamps item.url =
      some (get_datetime_from_timestamp item.timestamp) ∧
    dlookup (process_item env u item s).url_statuses item.url =
      some (match item.content with
        | some _ => URLStatus.CRAWLED
        | none => env.get_url_error_status item) ∧
    (item.content.isSome = true →
      (mkFoundURL (process_item env u item s) item.url).status = URLStatus.CRAWLED) := by
  cases hc : item.content with
  | none =>
    refine ⟨?_, ?_, ?_, ?_⟩ <;>
      simp [process_item, hc, setStatus, setUser, setTs, dlookup_dinsert, mkFoundURL]
  | some c =>
    cases hd : env.get_domain item.url with
    | none =>
      refine ⟨?_, ?_, ?_, ?_⟩ <;>
        simp [process_item, hc, hd, setStatus, setUser, setTs, dlookup_dinsert, mkFoundURL]
    | some dm =>
      have base :
          dlookup (setStatus item.url URLStatus.CRAWLED
            (setUser item.url u (setTs item.url (get_datetime_from_timestamp item.timestamp) s))).url_users item.url = some u ∧
          dlookup (setStatus item.url URLStatus.CRAWLED
            (setUser item.url u (setTs item.url (get_datetime_from_timestamp item.timestamp) s))).url_timestamps item.url =
            some (get_datetime_from_timestamp item.timestamp) ∧
          dlookup (setStatus item.url URLStatus.CRAWLED
            (setUser item.url u (setTs item.url (get_datetime_from_timestamp item.timestamp) s))).url_statuses item.url =
            some URLStatus.CRAWLED := by
        refine ⟨?_, ?_, ?_⟩ <;> simp [setStatus, setUser, setTs, dlookup_dinsert]
      obtain ⟨hu1, ht1, hs1⟩ := base
      obtain ⟨hu2, ht2, hs2⟩ := links_fold_inv env u dm
        (get_datetime_from_timestamp item.timestamp) c.links _ item.url hu1 ht1
      obtain ⟨hu3, ht3, hs3⟩ := links_fold_inv env u dm
        (get_datetime_from_timestamp item.timestamp) c.extra_links _ item.url hu2 ht2
      have hitem : process_item env u item s =
          c.extra_links.foldl
            (fun s link => process_link env u dm link (get_datetime_from_timestamp item.timestamp) s)
            (c.links.foldl
              (fun s link => process_link env u dm link (get_datetime_from_timestamp item.timestamp) s)
              (setStatus item.url URLStatus.CRAWLED
                (setUser item.url u (setTs item.url (get_datetime_from_timestamp item.timestamp) s)))) := by
        simp [process_item, hc, hd]
      rw [hitem]
      refine ⟨hu3, ht3, ?_, ?_⟩
      · rw [hs3, hs2]; exact hs1
      · intro _
        simp only [mkFoundURL]
        rw [hs3, hs2, hs1]
        rfl

/-- C8.  A crawled item whose own URL fails domain resolution records its
own status (`CRAWLED`), user and timestamp but performs no link processing:
the resulting state is exactly the three own-URL writes.  The failure is
local to the item: the fold over the remaining items of the batch continues
from that state unchanged. -/
theorem c8_domain_failure_local (env : RecEnv) (u : String) (item : CrawlItem)
    (s : RecState) (c : CrawlItemContent) (hc : item.content = some c)
    (hd : env.get_domain item.url = none) :
    process_item env u item s =
      setStatus item.url URLStatus.CRAWLED
        (setUser item.url u
          (setTs item.url (get_datetime_from_timestamp item.timestamp) s)) ∧
    ∀ rest : List CrawlItem,
      (item :: rest).foldl (fun s i => process_item env u i s) s =
        rest.foldl (fun s i => process_item env u i s) (process_item env u item s) := by
  constructor
  · simp [process_item, hc, hd]
  · intro rest; rfl

/-- C5.  For every processed link whose URL parses: when the target domain
is blacklisted the link processor returns the state unchanged (no
candidate-URL entries, no edge); otherwise it stamps both the exact link
URL and the root URL `scheme://netloc/` with the crawling user and the
observation timestamp, records the edge from the crawled page's domain to
the target domain, and assigns no status. -/
theorem c5_process_link_effects (env : RecEnv) (u d link : String) (ts : Int)
    (s : RecState) (p : UrlParts) (hp : env.urlparse link = some p) :
    (env.is_domain_blacklisted p.netloc = true →
      process_link env u d link ts s = s) ∧
    (env.is_domain_blacklisted p.netloc = false →
      dlookup (process_link env u d link ts s).url_users link = some u ∧
      dlookup (process_link env u d link ts s).url_timestamps link = some ts ∧
      dlookup (process_link env u d link ts s).url_users
        (p.scheme ++ "://" ++ p.netloc ++ "/") = some u ∧
      dlookup (process_link env u d link ts s).url_timestamps
        (p.scheme ++ "://" ++ p.netloc ++ "/") = some ts ∧
      edgeMem (process_link env u d link ts s).domain_links d p.netloc = true ∧
      (process_link env u d link ts s).url_statuses = s.url_statuses) := by
  constructor
  · intro hb; simp [process_link, hp, hb]
  · intro hb
    simp only [process_link, hp, hb, Bool.false_eq_true, if_false, addLink,
      setTs, setUser, dlookup_dinsert, edgeMem_addEdge]
    by_cases h1 : link = p.scheme ++ "://" ++ p.netloc ++ "/" <;>
      simp [h1, edgeMem_addEdge]

/-- C4.  The output `found_urls` of one reconciliation fold holds exactly
one record per URL in the union of the statused URLs and the user-stamped
URLs of the final accumulators; each record's fields are the final lookups
for its URL; and a URL that was only user-stamped (a discovered link,
never crawled and never errored, so never explicitly statused) appears
with the defaultdict status `NEW`. -/
theorem c4_found_url_set (env : RecEnv) (batches : List HashedBatch) :
    (((record_urls_in_database env batches).found_urls.map FoundURL.url).Nodup) ∧
    (∀ u : String,
      (∃ r ∈ (record_urls_in_database env batches).found_urls, r.url = u) ↔
        ((dlookup (record_urls_state env batches initState).url_statuses u).isSome = true ∨
          (dlookup (record_urls_state env batches initState).url_users u).isSome = true)) ∧
    (∀ r ∈ (record_urls_in_database env batches).found_urls,
      r = mkFoundURL (record_urls_state env batches initState) r.url) ∧
    (∀ u : String,
      dlookup (record_urls_state env batches initState).url_statuses u = none →
      (dlookup (record_urls_state env batches initState).url_users u).isSome = true →
      mkFoundURL (record_urls_state env batches initState) u ∈
          (record_urls_in_database env batches).found_urls ∧
        (mkFoundURL (record_urls_state env batches initState) u).status = URLStatus.NEW) := by
  have hout : (record_urls_in_database env batches).found_urls =
      (foundKeys (record_urls_state env batches initState)).map
        (mkFoundURL (record_urls_state env batches initState)) := rfl
  refine ⟨?_, ?_, ?_, ?_⟩
  · rw [hout]
    have : (((foundKeys (record_urls_state env batches initState)).map
        (mkFoundURL (record_urls_state env batches initState))).map FoundURL.url) =
        foundKeys (record_urls_state env batches initState) := by
      rw [List.map_map]
      have : (FoundURL.url ∘ mkFoundURL (record_urls_state env batches initState)) = id := by
        funext u; rfl
      rw [this, List.map_id]
    rw [this]
    exact List.nodup_dedup _
  · intro u
    rw [hout]
    constructor
    · rintro ⟨r, hr, hru⟩
      rcases (mem_found_iff _ r).mp hr with ⟨u', hu', hr'⟩
      have : r.url = u' := by rw [hr']; rfl
      rw [hru] at this; rw [this]; exact hu'
    · intro hu
      exact ⟨mkFoundURL (record_urls_state env batches initState) u,
        (mem_found_iff _ _).mpr ⟨u, hu, rfl⟩, rfl⟩
  · intro r hr
    rw [hout] at hr
    rcases (mem_found_iff _ r).mp hr with ⟨u', _, hr'⟩
    have h2 : r.url = u' := by rw [hr']; rfl
    rw [h2]; exact hr'
  · intro u hs hu
    constructor
    · rw [hout]
      exact (mem_found_iff _ _).mpr ⟨u, Or.inr hu, rfl⟩
    · simp [mkFoundURL, hs]

/-- The number of synthesized curated documents equals the number of
results. -/
lemma curatedDocuments_length (term : String) (results : List CurationResult) :
    (curatedDocuments term results).length = results.length := by
  simp [curatedDocuments]

/-- The successful path of the curation merge: with exactly one query
parameter holding exactly one value, the merge writes back the synthesized
curated documents followed by the kept other-term documents of the
addressed page. -/
lemma curate_ok (tokenize : String → List String) (gki : String → Nat)
    (gp : Nat → List Document) (c : CurationRequest) (k q : String)
    (hq : parse_qs c.url = [(k, [q])]) :
    _curate tokenize gki gp c =
      Except.ok (gki (" ".intercalate (tokenize q)),
        curatedDocuments (" ".intercalate (tokenize q)) c.results ++
          (gp (gki (" ".intercalate (tokenize q)))).filter
            (fun doc => doc.term != " ".intercalate (tokenize q))) := by
  simp [_curate, hq]

/-- C1.  A curation request that passes query validation partitions the
loaded page: documents of the curated term are discarded, documents of
every other term are kept unchanged (the `filter` below), and the page is
replaced in one write by the curated documents concatenated before the kept
documents; the new page's document count is the number of curated results
plus the number of other-term documents previously on the page. -/
theorem c1_curation_merge (tokenize : String → List String)
    (gki : String → Nat) (gp : Nat → List Document) (c : CurationRequest)
    (k q : String) (hq : parse_qs c.url = [(k, [q])]) :
    _curate tokenize gki gp c =
      Except.ok (gki (" ".intercalate (tokenize q)),
        curatedDocuments (" ".intercalate (tokenize q)) c.results ++
          (gp (gki (" ".intercalate (tokenize q)))).filter
            (fun doc => doc.term != " ".intercalate (tokenize q))) ∧
    (curatedDocuments (" ".intercalate (tokenize q)) c.results).length =
      c.results.length ∧
    (curatedDocuments (" ".intercalate (tokenize q)) c.results ++
        (gp (gki (" ".intercalate (tokenize q)))).filter
          (fun doc => doc.term != " ".intercalate (tokenize q))).length =
      c.results.length +
        ((gp (gki (" ".intercalate (tokenize q)))).filter
          (fun doc => doc.term != " ".intercalate (tokenize q))).length := by
  refine ⟨curate_ok tokenize gki gp c k q hq, curatedDocuments_length _ _, ?_⟩
  simp [curatedDocuments_length]

/-- C10.  A valid curation request with an empty results list replaces the
page with only the kept other-term documents: every document of the curated
term is removed and no curated document is added. -/
theorem c10_empty_results_deletes (tokenize : String → List String)
    (gki : String → Nat) (gp : Nat → List Document) (c : CurationRequest)
    (k q : String) (hq : parse_qs c.url = [(k, [q])]) (hr : c.results = []) :
    _curate tokenize gki gp c =
      Except.ok (gki (" ".intercalate (tokenize q)),
        (gp (gki (" ".intercalate (tokenize q)))).filter
          (fun doc => doc.term != " ".intercalate (tokenize q))) ∧
    ∀ doc ∈ (gp (gki (" ".intercalate (tokenize q)))).filter
        (fun doc => doc.term != " ".intercalate (tokenize q)),
      doc.term ≠ " ".intercalate (tokenize q) := by
  constructor
  · have h := curate_ok tokenize gki gp c k q hq
    rw [hr] at h
    simpa [curatedDocuments] using h
  · intro doc hdoc
    have := (List.mem_filter.mp hdoc).2
    simpa [bne_iff_ne] using this

/-- C2.  A curation request whose URL parses to zero query parameters, to
more than one distinct parameter, or to a single parameter with more than
one value is rejected before any page mutation: `_curate` returns the
corresponding error and performs no page write (a write happens only on the
`Except.ok` path, which carries the written page). -/
theorem c2_query_validation (tokenize : String → List String)
    (gki : String → Nat) (gp : Nat → List Document) (c : CurationRequest) :
    (parse_qs c.url = [] →
      _curate tokenize gki gp c = Except.error CurateError.stopIteration) ∧
    ((parse_qs c.url).length > 1 →
      _curate tokenize gki gp c = Except.error CurateError.multipleQueryStrings) ∧
    (∀ (k : String) (vs : List String), parse_qs c.url = [(k, vs)] →
      vs.length > 1 →
      _curate tokenize gki gp c = Except.error CurateError.multipleQueryValues) := by
  refine ⟨fun h => ?_, fun h => ?_, fun k vs h hv => ?_⟩
  · simp [_curate, h]
  · simp [_curate, h]
  · have h1 : ¬ (parse_qs c.url).length > 1 := by rw [h]; simp
    simp [_curate, h, h1, hv, Nat.not_lt.mp]

/-- C6.  The persisted document state is determined by the validated flag
and the case-insensitive source tag exactly as the spec's table states:
(true, "user") is user-approved, (true, "google") is
external-source-approved, (true, other) is organic-approved,
(false, "user") is user-submitted unapproved, (false, "google") is
external-source unapproved, and (false, other) yields no state. -/
theorem c6_document_state_mapping (source : String) :
    (str_lower source = "user" →
      _get_document_state true source = some DocumentState.FROM_USER_APPROVED ∧
      _get_document_state false source = some DocumentState.FROM_USER) ∧
    (str_lower source = "google" →
      _get_document_state true source = some DocumentState.FROM_GOOGLE_APPROVED ∧
      _get_document_state false source = some DocumentState.FROM_GOOGLE) ∧
    (str_lower source ≠ "user" → str_lower source ≠ "google" →
      _get_document_state true source = some DocumentState.ORGANIC_APPROVED ∧
      _get_document_state false source = none) := by
  refine ⟨fun h => ?_, fun h => ?_, fun h1 h2 => ?_⟩
  · simp [_get_document_state, h]
  · simp [_get_document_state, h]
  · simp [_get_document_state, h1, h2]

/-- C7.  The merge synthesizes exactly one document per curated result, in
the given order: the document at position `i` carries the result's title,
url and extract, score `MAX_CURATED_SCORE - i`, the curated term, and the
state derived from the result. -/
theorem c7_curated_scores (term : String) (results : List CurationResult) :
    (curatedDocuments term results).length = results.length ∧
    ∀ (i : Nat) (h1 : i < results.length)
      (h2 : i < (curatedDocuments term results).length),
      (curatedDocuments term results)[i] =
        { title := results[i].title
          url := results[i].url
          extract := results[i].extract
          score := MAX_CURATED_SCORE - (i : Int)
          term := term
          state := _get_document_state results[i].validated results[i].source } := by
  refine ⟨curatedDocuments_length term results, ?_⟩
  intro i h1 h2
  simp [curatedDocuments, List.getElem_map, List.getElem_enum]

/-- Witness fixture: a tokenizer that keeps the query as a single token. -/
def wTokenize : String → List String := fun s => [s]

/-- Witness fixture: page addressing sending every term to page 3. -/
def wGki : String → Nat := fun _ => 3

/-- Witness fixture: a document of the term "dog" sharing the page. -/
def wDog : Document := ⟨"Dog", "https://dog.example/", "a dog", 7, "dog", none⟩

/-- Witness fixture: a document of the term "cat" on the page. -/
def wCat : Document := ⟨"Cat", "https://cat.example/", "a cat", 9, "cat", none⟩

/-- Witness fixture: the page store holding one "cat" and one "dog"
document. -/
def wGp : Nat → List Document := fun _ => [wCat, wDog]

/-- Witness fixture: a validated result sourced from "Google". -/
def wResA : CurationResult := ⟨"A", "https://a.example/", "extract a", true, "Google"⟩

/-- Witness fixture: an unvalidated result with another source. -/
def wResB : CurationResult := ⟨"B", "https://b.example/", "extract b", false, "other"⟩

/-- Witness fixture: a validated user-sourced result. -/
def wResC : CurationResult := ⟨"C", "https://c.example/", "extract c", true, "user"⟩

/-- Witness fixture: a curation request for the term "cat" with two
results. -/
def wReq : CurationRequest := ⟨"q=cat", [wResA, wResB]⟩

/-- Witness fixture: a reconciliation environment with the blacklist
`{"spam.example"}` and domain resolution through the URL-parsing model. -/
def wEnv : RecEnv :=
  ⟨urlparseModel, fun d => d = "spam.example",
    fun u => (urlparseModel u).map UrlParts.netloc,
    fun _ => URLStatus.ERROR_OTHER⟩

/-- Witness fixture: the accumulator state after observing
`http://b.example/` as a link only. -/
def wLinkState : RecState :=
  process_link wEnv "u0" "a.example" "http://b.example/" 1000 initState

/-- Witness fixture: a later crawl of the link-only URL. -/
def wItemB : CrawlItem := ⟨"http://b.example/", 2000, some ⟨[], []⟩⟩

/-- Witness fixture: one batch crawling `http://a.example/` and discovering
the deep link `http://b.example/x/y`. -/
def wBatch : HashedBatch :=
  ⟨"u1", [⟨"http://a.example/", 1000, some ⟨["http://b.example/x/y"], []⟩⟩]⟩

/-- Witness fixture: an environment whose domain resolution always fails. -/
def wEnvNoDomain : RecEnv :=
  ⟨urlparseModel, fun _ => false, fun _ => none, fun _ => URLStatus.ERROR_OTHER⟩

/-- Witness fixture: a crawled item with one discovered link. -/
def wItemA : CrawlItem := ⟨"http://a.example/", 1000, some ⟨["http://b.example/"], []⟩⟩

/-- Witness for C1 at the spec's example: curating "cat" with two results
over a page holding a "cat" and a "dog" document replaces only the "cat"
document; the result is the two curated documents before the kept "dog"
document and the count is 2 + 1. -/
theorem c1_witness :
    _curate wTokenize wGki wGp wReq =
      Except.ok (3,
        [⟨"A", "https://a.example/", "extract a", 1111111, "cat",
            some DocumentState.FROM_GOOGLE_APPROVED⟩,
          ⟨"B", "https://b.example/", "extract b", 1111110, "cat", none⟩,
          wDog]) ∧
    (curatedDocuments "cat" wReq.results).length = 2 ∧
    (curatedDocuments "cat" wReq.results ++
        (wGp 3).filter (fun doc => doc.term != "cat")).length = 2 + 1 :=
  c1_curation_merge wTokenize wGki wGp wReq "q" "cat" (by decide)

/-- Witness for C2: the spec's two-parameter example, an empty query
string, and a duplicated parameter are all rejected. -/
theorem c2_witness :
    _curate wTokenize wGki wGp ⟨"?q=foo&lang=en", []⟩ =
        Except.error CurateError.multipleQueryStrings ∧
    _curate wTokenize wGki wGp ⟨"", []⟩ =
        Except.error CurateError.stopIteration ∧
    _curate wTokenize wGki wGp ⟨"q=a&q=b", []⟩ =
        Except.error CurateError.multipleQueryValues :=
  ⟨(c2_query_validation wTokenize wGki wGp ⟨"?q=foo&lang=en", []⟩).2.1 (by decide),
    (c2_query_validation wTokenize wGki wGp ⟨"", []⟩).1 (by decide),
    (c2_query_validation wTokenize wGki wGp ⟨"q=a&q=b", []⟩).2.2 "q" ["a", "b"]
      (by decide) (by decide)⟩

/-- Witness for C3 at the spec's scenario: a URL first recorded link-only
and later crawled in the same cycle ends with output status `CRAWLED`. -/
theorem c3_witness :
    (mkFoundURL (process_item wEnv "u1" wItemB wLinkState) "http://b.example/").status =
      URLStatus.CRAWLED :=
  (c3_last_write_wins wEnv "u1" wItemB wLinkState).2.2.2 (by decide)

/-- Witness for C4: a URL observed only as a discovered link appears in the
output with status `NEW`. -/
theorem c4_witness :
    mkFoundURL (record_urls_state wEnv [wBatch] initState) "http://b.example/x/y" ∈
        (record_urls_in_database wEnv [wBatch]).found_urls ∧
    (mkFoundURL (record_urls_state wEnv [wBatch] initState) "http://b.example/x/y").status =
        URLStatus.NEW :=
  (c4_found_url_set wEnv [wBatch]).2.2.2 "http://b.example/x/y" (by decide) (by decide)

/-- Witness for C5: the blacklisted link `http://spam.example/page`
produces no side effects, and the non-blacklisted deep link
`http://b.example/x/y` yields candidate entries for the link and the root
`http://b.example/` plus the edge `a.example -> b.example`. -/
theorem c5_witness :
    process_link wEnv "u1" "a.example" "http://spam.example/page" 5 initState =
        initState ∧
    (dlookup (process_link wEnv "u1" "a.example" "http://b.example/x/y" 7 initState).url_users
        "http://b.example/x/y" = some "u1" ∧
      dlookup (process_link wEnv "u1" "a.example" "http://b.example/x/y" 7 initState).url_timestamps
        "http://b.example/x/y" = some 7 ∧
      dlookup (process_link wEnv "u1" "a.example" "http://b.example/x/y" 7 initState).url_users
        "http://b.example/" = some "u1" ∧
      dlookup (process_link wEnv "u1" "a.example" "http://b.example/x/y" 7 initState).url_timestamps
        "http://b.example/" = some 7 ∧
      edgeMem (process_link wEnv "u1" "a.example" "http://b.example/x/y" 7 initState).domain_links
        "a.example" "b.example" = true ∧
      (process_link wEnv "u1" "a.example" "http://b.example/x/y" 7 initState).url_statuses =
        initState.url_statuses) :=
  ⟨(c5_process_link_effects wEnv "u1" "a.example" "http://spam.example/page" 5 initState
      ⟨"http", "spam.example"⟩ (by decide)).1 (by decide),
    (c5_process_link_effects wEnv "u1" "a.example" "http://b.example/x/y" 7 initState
      ⟨"http", "b.example"⟩ (by decide)).2 (by decide)⟩

/-- Witness for C6: the mixed-case source "Google" maps to the
external-source states, and an unrecognized source maps to
organic-approved or no state. -/
theorem c6_witness :
    (_get_document_state true "Google" = some DocumentState.FROM_GOOGLE_APPROVED ∧
      _get_document_state false "Google" = some DocumentState.FROM_GOOGLE) ∧
    (_get_document_state true "other" = some DocumentState.ORGANIC_APPROVED ∧
      _get_document_state false "other" = none) :=
  ⟨(c6_document_state_mapping "Google").2.1 (by decide),
    (c6_document_state_mapping "other").2.2 (by decide) (by decide)⟩

/-- Witness for C7: curating with three results gives the third document
score `MAX_CURATED_SCORE - 2 = 1111109`, the curated term, and the state
derived from the result. -/
theorem c7_witness :
    (curatedDocuments "cat" [wResA, wResB, wResC]).length =
        [wResA, wResB, wResC].length ∧
    (curatedDocuments "cat" [wResA, wResB, wResC]).get ⟨2, by decide⟩ =
      ⟨"C", "https://c.example/", "extract c", 1111109, "cat",
        some DocumentState.FROM_USER_APPROVED⟩ :=
  ⟨(c7_curated_scores "cat" [wResA, wResB, wResC]).1,
    (c7_curated_scores "cat" [wResA, wResB, wResC]).2 2 (by decide) (by decide)⟩

/-- Witness for C8: with failing domain resolution, processing the crawled
item writes exactly the item's own status, user and timestamp. -/
theorem c8_witness :
    process_item wEnvNoDomain "u1" wItemA initState =
      setStatus "http://a.example/" URLStatus.CRAWLED
        (setUser "http://a.example/" "u1"
          (setTs "http://a.example/" 1000 initState)) :=
  (c8_domain_failure_local wEnvNoDomain "u1" wItemA initState
    ⟨["http://b.example/"], []⟩ rfl rfl).1

/-- Witness for C10: curating "cat" with zero results deletes the "cat"
document and keeps the "dog" document. -/
theorem c10_witness :
    _curate wTokenize wGki wGp ⟨"q=cat", []⟩ = Except.ok (3, [wDog]) :=
  (c10_empty_results_deletes wTokenize wGki wGp ⟨"q=cat", []⟩ "q" "cat"
    (by decide) rfl).1

end Mwmbl
